import Mathlib

/-!
Verification of the FormEase browser-extension form-filling engine.

This file gives a shallow embedding, in Lean 4, of the field-matching,
fill-strategy and fill-orchestration code of the repository
(src/content.js: FormFieldDetector metadata shape, FieldMapper,
AutoFiller, ContentScriptController.performAutoFill /
handlePerformAutoFill) and of the file parser sanitizer
(src/fileParser.js: FileParser.sanitizeStringValue), together with
theorems settling the frozen claims about them.

Modelling conventions:
- JavaScript strings are Lean String values; operations such as trim,
  toLowerCase, includes, startsWith, split and the character-class
  regex replacements of the source are modelled by explicit, executable
  character-list functions below (ASCII-faithful; the source only ever
  feeds them ASCII keyword tables and form metadata).
- JavaScript numbers, as used by AutoFiller.fillNumberField via
  parseFloat, are modelled exactly by an integer mantissa/decimal
  exponent pair (value = mantissa * 10 ^ exp10) plus the two
  infinities; NaN is Option.none.  This represents every value
  parseFloat can produce from a decimal literal exactly; rounding to
  binary doubles is abstracted away (the claims never depend on it).
- DOM side effects (focus, events, CSS animation classes, console
  logging) either carry no engine-visible state (modelled as no-ops,
  noted where relevant) or are represented by explicit fields of the
  Elem structure (value, attachment, visibility box, focusability).
- The wall-clock timeouts of the fill loop are modelled by an explicit
  elapsed-milliseconds counter threaded through the loop, with each
  candidate carrying the time its fill consumes and an oracle flag for
  whether the 5-second per-field race fires (the modelled strategies
  themselves are synchronous, so the race fires only when the page
  environment hangs, which the flag represents).
- Exceptions are Except.error with the source's message strings.
-/

namespace FormEase

/-! ## JavaScript string primitives -/

/-- The whitespace class used by JS String.trim and the regex class
backslash-s, restricted to the ASCII range (the source never feeds
non-ASCII whitespace to these functions). -/
def jsWhitespaceB (c : Char) : Bool :=
  c == ' ' || c == '\t' || c == '\n' || c == '\r' || c == '\x0b' || c == '\x0c'

/-- ASCII lowercasing of one character, as JS String.toLowerCase acts
on the ASCII letters (the alias tables and metadata of the source are
ASCII). -/
def lowerChar (c : Char) : Char :=
  if 'A' ≤ c && c ≤ 'Z' then Char.ofNat (c.toNat + 32) else c

/-- JS String.toLowerCase. -/
def jsToLower (s : String) : String :=
  String.mk (s.data.map lowerChar)

/-- pat is a prefix of hay (JS String.startsWith / regex anchored at
the start). -/
def listStartsWith : List Char → List Char → Bool
  | _, [] => true
  | [], _ :: _ => false
  | c :: cs, d :: ds => c == d && listStartsWith cs ds

/-- pat occurs as a contiguous substring of hay (JS String.includes). -/
def listContains : List Char → List Char → Bool
  | [], pat => listStartsWith [] pat
  | h :: t, pat => listStartsWith (h :: t) pat || listContains t pat

/-- JS hay.includes(pat). -/
def jsIncludes (hay pat : String) : Bool :=
  listContains hay.data pat.data

/-- JS s.startsWith(pat). -/
def jsStartsWith (s pat : String) : Bool :=
  listStartsWith s.data pat.data

/-- JS String.trim on character lists: drop whitespace from the end
(via reverse), then from the front. -/
def trimList (cs : List Char) : List Char :=
  List.dropWhile jsWhitespaceB ((List.dropWhile jsWhitespaceB cs.reverse).reverse)

/-- JS String.trim. -/
def jsTrim (s : String) : String :=
  String.mk (trimList s.data)

/-- JS s.substring(0, n). -/
def jsSubstringTo (s : String) (n : Nat) : String :=
  String.mk (s.data.take n)

/-- JS string concatenation. -/
def jsConcat (a b : String) : String :=
  String.mk (a.data ++ b.data)

/-! ## FileParser.sanitizeStringValue (src/fileParser.js, lines 243-253)

Applied to every value produced by the JSON, CSV and TXT parsing
paths of FileParser before it reaches the engine. -/

/-- FileParser.sanitizeStringValue: remove the HTML/XML-significant
characters, remove null bytes, trim, and cap the length at 1000. -/
def sanitizeStringValue (value : String) : String :=
  jsSubstringTo
    (jsTrim (String.mk
      (((value.data.filter fun c =>
          !(c == '<' || c == '>' || c == '\'' || c == '"' || c == '&')).filter fun c =>
          !(c == '\x00')))))
    1000

/-! ## Helper lemmas about the string primitives -/

theorem head?_dropWhile_not {p : Char → Bool} :
    ∀ (l : List Char) (a : Char), (List.dropWhile p l).head? = some a → p a = false := by
  intro l
  induction l with
  | nil => intro a h; simp [List.dropWhile] at h
  | cons c t ih =>
    intro a h
    by_cases hc : p c
    · rw [List.dropWhile_cons_of_pos hc] at h
      exact ih a h
    · rw [List.dropWhile_cons_of_neg hc] at h
      simp at h
      rw [← h]
      exact Bool.of_not_eq_true hc

theorem dropWhile_cons_false {p : Char → Bool} {a : Char} (l : List Char) (h : p a = false) :
    List.dropWhile p (a :: l) = a :: l :=
  List.dropWhile_cons_of_neg (by simp [h])

theorem exists_append_dropWhile (p : Char → Bool) :
    ∀ l : List Char, ∃ r, r ++ List.dropWhile p l = l := by
  intro l
  induction l with
  | nil => exact ⟨[], rfl⟩
  | cons c t ih =>
    by_cases hc : p c
    · obtain ⟨r, hr⟩ := ih
      refine ⟨c :: r, ?_⟩
      rw [List.dropWhile_cons_of_pos hc, List.cons_append, hr]
    · refine ⟨[], ?_⟩
      rw [List.dropWhile_cons_of_neg hc, List.nil_append]

theorem head?_append_left {α : Type} {x : List α} (r : List α) (hx : x ≠ []) :
    (x ++ r).head? = x.head? := by
  cases x with
  | nil => exact absurd rfl hx
  | cons a t => rfl

/-- The head of a trimmed list is never whitespace. -/
theorem trimList_head_not_ws {l : List Char} {a : Char}
    (h : (trimList l).head? = some a) : jsWhitespaceB a = false :=
  head?_dropWhile_not _ a h

/-- The last character of a trimmed list (seen as the head of its
reverse) is never whitespace. -/
theorem trimList_reverse_head_not_ws {l : List Char} {a : Char}
    (h : ((trimList l).reverse).head? = some a) : jsWhitespaceB a = false := by
  unfold trimList at h
  set Z := List.dropWhile jsWhitespaceB l.reverse with hZ
  set D := List.dropWhile jsWhitespaceB Z.reverse with hD
  obtain ⟨r, hr⟩ := exists_append_dropWhile jsWhitespaceB Z.reverse
  rw [← hD] at hr
  have hrev : D.reverse ++ r.reverse = Z := by
    have := congrArg List.reverse hr
    rw [List.reverse_append, List.reverse_reverse] at this
    exact this
  have hne : D.reverse ≠ [] := by
    intro hcon
    rw [hcon] at h
    simp at h
  have hhead : Z.head? = some a := by
    rw [← hrev, head?_append_left _ hne]
    exact h
  rw [hZ] at hhead
  exact head?_dropWhile_not l.reverse a hhead

/-- A list that is already whitespace-free at both ends is fixed by
trimList. -/
theorem trimList_eq_self {l : List Char}
    (h1 : List.dropWhile jsWhitespaceB l = l)
    (h2 : List.dropWhile jsWhitespaceB l.reverse = l.reverse) :
    trimList l = l := by
  unfold trimList
  rw [h2, List.reverse_reverse, h1]

theorem mem_of_mem_dropWhile {p : Char → Bool} {l : List Char} {c : Char}
    (h : c ∈ List.dropWhile p l) : c ∈ l := by
  obtain ⟨r, hr⟩ := exists_append_dropWhile p l
  rw [← hr]
  exact List.mem_append_right r h

theorem mem_of_mem_trimList {l : List Char} {c : Char} (h : c ∈ trimList l) : c ∈ l := by
  unfold trimList at h
  have h1 := mem_of_mem_dropWhile h
  rw [List.mem_reverse] at h1
  have h2 := mem_of_mem_dropWhile h1
  rw [List.mem_reverse] at h2
  exact h2

theorem head?_take_pos {α : Type} {n : Nat} (hn : 0 < n) (l : List α) :
    (List.take n l).head? = l.head? := by
  cases l with
  | nil => simp
  | cons a t =>
    cases n with
    | zero => exact absurd hn (by omega)
    | succ m => rfl

theorem sanitizeStringValue_data (value : String) :
    (sanitizeStringValue value).data =
      List.take 1000 (trimList (((value.data.filter fun c =>
          !(c == '<' || c == '>' || c == '\'' || c == '"' || c == '&')).filter fun c =>
          !(c == '\x00')))) := rfl

/-- C10: every string produced by FileParser.sanitizeStringValue is at
most 1000 characters long, contains none of the characters removed by
its sanitizing replacements (angle brackets, quotes, ampersand), has
no null bytes, and has no leading whitespace. -/
theorem sanitizeStringValue_safe (value : String) :
    (sanitizeStringValue value).length ≤ 1000
    ∧ (∀ c ∈ (sanitizeStringValue value).data,
        c ≠ '<' ∧ c ≠ '>' ∧ c ≠ '\'' ∧ c ≠ '"' ∧ c ≠ '&' ∧ c ≠ '\x00')
    ∧ (∀ c, (sanitizeStringValue value).data.head? = some c → jsWhitespaceB c = false) := by
  refine ⟨?_, ?_, ?_⟩
  · show (sanitizeStringValue value).data.length ≤ 1000
    rw [sanitizeStringValue_data, List.length_take]
    exact Nat.min_le_left _ _
  · intro c hc
    rw [sanitizeStringValue_data] at hc
    have hc1 : c ∈ trimList _ := List.take_subset _ _ hc
    have hc2 := mem_of_mem_trimList hc1
    have hc3 := List.mem_filter.mp hc2
    have hc4 := List.mem_filter.mp hc3.1
    have hp1 := hc4.2
    have hp2 := hc3.2
    simp only [Bool.not_eq_true', Bool.or_eq_false_iff, beq_eq_false_iff_ne] at hp1 hp2
    exact ⟨hp1.1.1.1.1, hp1.1.1.1.2, hp1.1.1.2, hp1.1.2, hp1.2, hp2⟩
  · intro c hc
    rw [sanitizeStringValue_data, head?_take_pos (by omega)] at hc
    exact trimList_head_not_ws hc

/-- Witness for C10 at the concrete input consisting of leading
whitespace, an angle-bracketed fragment and trailing whitespace. -/
theorem sanitizeStringValue_safe_witness :
    ('h' ≠ '<' ∧ 'h' ≠ '>' ∧ 'h' ≠ '\'' ∧ 'h' ≠ '"' ∧ 'h' ≠ '&' ∧ 'h' ≠ '\x00')
    ∧ jsWhitespaceB 'h' = false :=
  ⟨(sanitizeStringValue_safe "  <hi>  ").2.1 'h' (by decide),
   (sanitizeStringValue_safe "  <hi>  ").2.2 'h' (by decide)⟩

/-! ## Data model (src/content.js)

A FieldDescriptor as built by FormFieldDetector.extractFieldMetadata;
the live DOM element it borrows is the Elem structure below, carrying
exactly the element state the engine reads or writes. -/

/-- The engine-visible state of one live form control.  Fields mirror
the DOM properties the source reads (value, maxLength, min, max,
disabled, readOnly, bounding box, document membership, focus and
content-editable behavior, select options, nested input and member
radios of the ARIA widgets). -/
structure Elem where
  value : String := ""
  textContent : String := ""
  maxLength : Int := -1
  minAttr : String := ""
  maxAttr : String := ""
  disabled : Bool := false
  readOnly : Bool := false
  width : Nat := 1
  height : Nat := 1
  attached : Bool := true
  hasFocusMethod : Bool := true
  focusSucceeds : Bool := true
  tagName : String := "input"
  isContentEditable : Bool := false
  nestedInputValue : Option String := none
  options : List (String × String) := []
  radioLabels : List String := []
  selectedRadio : Option String := none
deriving DecidableEq, Repr

/-- A FieldDescriptor (extractFieldMetadata): identifying metadata of
one detected control plus the borrowed element reference. -/
structure Field where
  id : String := ""
  element : Elem := {}
  type : String := "text"
  name : String := ""
  htmlId : String := ""
  placeholder : String := ""
  label : String := ""
  value : String := ""
  required : Bool := false
  ariaLabel : String := ""
  title : String := ""
  dataName : String := ""
  identifier : String := ""
deriving DecidableEq, Repr

/-- One AliasMapping entry of FieldMapper: alias list plus priority. -/
structure AliasMapping where
  aliases : List String
  priority : Nat
deriving DecidableEq, Repr

/-- JS object property lookup on an insertion-ordered table. -/
def lookupMapping (mappings : List (String × AliasMapping)) (key : String) :
    Option AliasMapping :=
  (mappings.find? fun p => p.1 == key).map (·.2)

/-- JS object property lookup in the user data record. -/
def lookupData (userData : List (String × String)) (key : String) : Option String :=
  (userData.find? fun p => p.1 == key).map (·.2)

/-- FieldMapper.initializeDefaultMappings: the built-in alias table,
in source insertion order. -/
def defaultMappings : List (String × AliasMapping) :=
  [("firstName", ⟨["firstname", "first_name", "fname", "given_name", "first-name",
      "first name", "name first"], 10⟩),
   ("lastName", ⟨["lastname", "last_name", "lname", "surname", "last-name",
      "last name", "family name"], 10⟩),
   ("email", ⟨["email", "email_address", "e_mail", "e-mail", "mail", "email address"], 10⟩),
   ("phone", ⟨["phone", "telephone", "tel", "phone_number", "mobile", "cell",
      "phone number"], 9⟩),
   ("street", ⟨["street", "address", "address1", "street_address", "addr1",
      "street address"], 9⟩),
   ("city", ⟨["city", "town", "locality"], 9⟩),
   ("state", ⟨["state", "province", "region"], 9⟩),
   ("zipCode", ⟨["zip", "zipcode", "zip_code", "postal", "postal_code", "postcode",
      "zip code"], 9⟩),
   ("country", ⟨["country", "nation"], 8⟩),
   ("fullName", ⟨["full name", "fullname", "full_name", "name", "your name",
      "complete name"], 10⟩),
   ("dateOfBirth", ⟨["date of birth", "birth date", "birthday", "dob", "birthdate",
      "date birth"], 9⟩),
   ("gender", ⟨["gender", "sex"], 8⟩),
   ("mobile", ⟨["mobile", "mobile_number", "mobile number", "cell", "cellular"], 9⟩),
   ("linkedIn", ⟨["linkedin", "linkedin_profile", "linkedin profile"], 7⟩)]

/-! ## FieldMapper scoring (src/content.js, lines 357-506) -/

/-- JS text.split(regex backslash-s-plus): cut at each maximal
whitespace run, keeping the empty pieces a leading or trailing run
produces.  The inSep flag records whether the previous character was
part of a separator run. -/
def splitWSAux : List Char → List Char → Bool → List (List Char)
  | [], acc, _ => [acc.reverse]
  | c :: rest, acc, inSep =>
    if jsWhitespaceB c then
      if inSep then splitWSAux rest acc true
      else acc.reverse :: splitWSAux rest [] true
    else splitWSAux rest (c :: acc) false

/-- JS s.split(regex backslash-s-plus) as used by
FieldMapper.hasWordMatch. -/
def jsSplitWS (s : String) : List String :=
  (splitWSAux s.data [] false).map String.mk

/-- FieldMapper.hasWordMatch: every whitespace-delimited word of the
search term matches some word of the text by mutual substring
containment. -/
def hasWordMatch (text searchTerm : String) : Bool :=
  if text == "" || searchTerm == "" then false
  else
    let textWords := jsSplitWS (jsToLower text)
    let searchWords := jsSplitWS (jsToLower searchTerm)
    searchWords.all fun searchWord =>
      textWords.any fun textWord =>
        jsIncludes textWord searchWord || jsIncludes searchWord textWord

/-- FieldMapper.calculateSmartMatchScore: the per-dataKey keyword rule
(the switch on dataKey), scoring priority * 9 when the field's label
or identifier contains the fixed keywords of that key. -/
def calculateSmartMatchScore (field : Field) (dataKey : String)
    (mapping : AliasMapping) : Nat :=
  let label := jsToLower field.label
  let identifier := jsToLower field.identifier
  if dataKey == "fullName" then
    if jsIncludes label "full name" || jsIncludes label "name" ||
        jsIncludes identifier "full name" || jsIncludes identifier "name" then
      mapping.priority * 9 else 0
  else if dataKey == "firstName" then
    if jsIncludes label "first name" || jsIncludes label "first" ||
        jsIncludes identifier "first name" || jsIncludes identifier "first" then
      mapping.priority * 9 else 0
  else if dataKey == "lastName" then
    if jsIncludes label "last name" || jsIncludes label "last" ||
        jsIncludes identifier "last name" || jsIncludes identifier "last" then
      mapping.priority * 9 else 0
  else if dataKey == "email" then
    if jsIncludes label "email" || jsIncludes identifier "email" then
      mapping.priority * 9 else 0
  else if dataKey == "phone" then
    if jsIncludes label "phone" || jsIncludes label "mobile" || jsIncludes label "number" ||
        jsIncludes identifier "phone" || jsIncludes identifier "mobile" then
      mapping.priority * 9 else 0
  else if dataKey == "dateOfBirth" then
    if jsIncludes label "birth" || jsIncludes label "date" ||
        jsIncludes identifier "birth" || jsIncludes identifier "date" then
      mapping.priority * 9 else 0
  else if dataKey == "gender" then
    if jsIncludes label "gender" || jsIncludes label "male" || jsIncludes label "female" ||
        jsIncludes identifier "gender" || jsIncludes identifier "choose" then
      mapping.priority * 9 else 0
  else if dataKey == "mobile" then
    if jsIncludes label "mobile" || jsIncludes label "cell" ||
        jsIncludes identifier "mobile" || jsIncludes identifier "cell" then
      mapping.priority * 9 else 0
  else if dataKey == "linkedIn" then
    if jsIncludes label "linkedin" || jsIncludes label "profile" ||
        jsIncludes identifier "linkedin" || jsIncludes identifier "profile" then
      mapping.priority * 9 else 0
  else 0

/-- The exact-match condition of calculateMatchScore: the field's
name, id, label or ariaLabel, lowercased, equals the lowercased
alias. -/
def exactAliasMatchB (field : Field) (als : String) : Bool :=
  jsToLower field.name == jsToLower als || jsToLower field.htmlId == jsToLower als ||
  jsToLower field.label == jsToLower als || jsToLower field.ariaLabel == jsToLower als

/-- The score one alias contributes inside the forEach of
calculateMatchScore: the first matching rule of the if/else chain
decides; a non-matching alias contributes nothing (0). -/
def aliasRuleScore (field : Field) (mapping : AliasMapping) (als : String) : Nat :=
  let aliasLower := jsToLower als
  if exactAliasMatchB field als then mapping.priority * 10
  else if jsIncludes (jsToLower field.identifier) aliasLower then mapping.priority * 8
  else if jsIncludes (jsToLower field.label) aliasLower ||
      jsIncludes (jsToLower field.ariaLabel) aliasLower then mapping.priority * 6
  else if hasWordMatch (jsToLower field.label) aliasLower ||
      hasWordMatch (jsToLower field.ariaLabel) aliasLower then mapping.priority * 7
  else 0

/-- FieldMapper.calculateMatchScore: the running score starts from the
smart-match score and each alias raises it to the maximum of its rule
score (score = Math.max(score, rule) in every branch of the source's
chain; a branchless alias leaves the score unchanged, i.e. raises it
by 0). -/
def calculateMatchScore (field : Field) (dataKey : String)
    (mappings : List (String × AliasMapping)) : Nat :=
  match lookupMapping mappings dataKey with
  | none => 0
  | some mapping =>
    let smartScore := calculateSmartMatchScore field dataKey mapping
    let init := if 0 < smartScore then max 0 smartScore else 0
    mapping.aliases.foldl (fun score als => max score (aliasRuleScore field mapping als))
      init

/-! ## Helper lemmas about running maxima -/

theorem foldlMax_init_le {α : Type} (f : α → Nat) :
    ∀ (l : List α) (init : Nat), init ≤ l.foldl (fun s a => max s (f a)) init := by
  intro l
  induction l with
  | nil => intro init; exact le_refl _
  | cons a t ih =>
    intro init
    exact le_trans (le_max_left init (f a)) (ih (max init (f a)))

theorem foldlMax_mem_le {α : Type} (f : α → Nat) :
    ∀ (l : List α) (init : Nat) (a : α), a ∈ l →
      f a ≤ l.foldl (fun s a => max s (f a)) init := by
  intro l
  induction l with
  | nil => intro init a ha; exact absurd ha (List.not_mem_nil a)
  | cons b t ih =>
    intro init a ha
    rcases List.mem_cons.mp ha with h | h
    · subst h
      exact le_trans (le_max_right init (f a)) (foldlMax_init_le f t _)
    · exact ih _ a h

theorem foldlMax_le {α : Type} (f : α → Nat) :
    ∀ (l : List α) (init b : Nat), init ≤ b → (∀ a ∈ l, f a ≤ b) →
      l.foldl (fun s a => max s (f a)) init ≤ b := by
  intro l
  induction l with
  | nil => intro init b hi _; exact hi
  | cons a t ih =>
    intro init b hi hall
    refine ih _ b (max_le hi (hall a (List.mem_cons_self a t))) ?_
    intro x hx
    exact hall x (List.mem_cons_of_mem a hx)

theorem calculateMatchScore_eq_of_lookup {field : Field} {dataKey : String}
    {mappings : List (String × AliasMapping)} {mapping : AliasMapping}
    (hlk : lookupMapping mappings dataKey = some mapping) :
    calculateMatchScore field dataKey mappings =
      mapping.aliases.foldl (fun score als => max score (aliasRuleScore field mapping als))
        (if 0 < calculateSmartMatchScore field dataKey mapping
          then max 0 (calculateSmartMatchScore field dataKey mapping) else 0) := by
  unfold calculateMatchScore
  rw [hlk]

/-! ## C1: exact alias matches dominate substring matches -/

/-- C1: for every field, active alias table and data key whose mapping
has positive priority: a case-insensitive exact match of the field's
name, htmlId, label or ariaLabel against any alias forces a score of
at least priority * 10; and when no alias matches exactly and the
smart-match rule is silent, an alias occurring as a substring of the
field's identifier forces a score of exactly priority * 8, strictly
below priority * 10. -/
theorem calculateMatchScore_exact_dominates (field : Field)
    (mappings : List (String × AliasMapping)) (dataKey : String) (mapping : AliasMapping)
    (hlk : lookupMapping mappings dataKey = some mapping)
    (hp : 0 < mapping.priority) :
    ((∃ a ∈ mapping.aliases, exactAliasMatchB field a = true) →
      mapping.priority * 10 ≤ calculateMatchScore field dataKey mappings)
    ∧ (calculateSmartMatchScore field dataKey mapping = 0 →
      (∀ a ∈ mapping.aliases, exactAliasMatchB field a = false) →
      (∃ a ∈ mapping.aliases,
        jsIncludes (jsToLower field.identifier) (jsToLower a) = true) →
      calculateMatchScore field dataKey mappings = mapping.priority * 8
      ∧ mapping.priority * 8 < mapping.priority * 10) := by
  constructor
  · rintro ⟨a, ha, hex⟩
    have hval : aliasRuleScore field mapping a = mapping.priority * 10 := by
      unfold aliasRuleScore
      rw [if_pos hex]
    rw [calculateMatchScore_eq_of_lookup hlk]
    have := foldlMax_mem_le (aliasRuleScore field mapping) mapping.aliases
      (if 0 < calculateSmartMatchScore field dataKey mapping
        then max 0 (calculateSmartMatchScore field dataKey mapping) else 0) a ha
    rw [hval] at this
    exact this
  · intro hsmart hnoexact hsub
    obtain ⟨a, ha, hinc⟩ := hsub
    constructor
    · rw [calculateMatchScore_eq_of_lookup hlk, hsmart]
      simp only [lt_irrefl, if_false]
      apply le_antisymm
      · refine foldlMax_le (aliasRuleScore field mapping) mapping.aliases 0 _
          (Nat.zero_le _) ?_
        intro x hx
        unfold aliasRuleScore
        rw [if_neg (by rw [hnoexact x hx]; exact Bool.false_ne_true)]
        by_cases h8 : jsIncludes (jsToLower field.identifier) (jsToLower x) = true
        · rw [if_pos h8]
        · rw [if_neg h8]
          by_cases h6 : (jsIncludes (jsToLower field.label) (jsToLower x) ||
              jsIncludes (jsToLower field.ariaLabel) (jsToLower x)) = true
          · rw [if_pos h6]
            exact Nat.mul_le_mul (le_refl _) (by omega)
          · rw [if_neg h6]
            by_cases h7 : (hasWordMatch (jsToLower field.label) (jsToLower x) ||
                hasWordMatch (jsToLower field.ariaLabel) (jsToLower x)) = true
            · rw [if_pos h7]
              exact Nat.mul_le_mul (le_refl _) (by omega)
            · rw [if_neg h7]
              exact Nat.zero_le _
      · have hval : aliasRuleScore field mapping a = mapping.priority * 8 := by
          unfold aliasRuleScore
          rw [if_neg (by rw [hnoexact a ha]; exact Bool.false_ne_true), if_pos hinc]
        have := foldlMax_mem_le (aliasRuleScore field mapping) mapping.aliases 0 a ha
        rw [hval] at this
        exact this
    · exact mul_lt_mul_of_pos_left (by omega) hp

/-- Witness for C1: the built-in email mapping (priority 10) with a
field named email scores at least 100 by the exact rule, and a field
whose identifier merely contains the zipCode alias zip scores exactly
72 = 9 * 8 < 90. -/
theorem calculateMatchScore_exact_dominates_witness :
    (90 ≤ 100 ∧ 100 ≤ calculateMatchScore { name := "Email", identifier := "email" }
        "email" defaultMappings)
    ∧ (calculateMatchScore { identifier := "my zip field" } "zipCode" defaultMappings = 72
      ∧ 72 < 90) := by
  constructor
  · refine ⟨by omega, ?_⟩
    exact (calculateMatchScore_exact_dominates
      { name := "Email", identifier := "email" } defaultMappings "email"
      ⟨["email", "email_address", "e_mail", "e-mail", "mail", "email address"], 10⟩
      (by decide) (by decide)).1 ⟨"email", by decide, by decide⟩
  · exact (calculateMatchScore_exact_dominates
      { identifier := "my zip field" } defaultMappings "zipCode"
      ⟨["zip", "zipcode", "zip_code", "postal", "postal_code", "postcode", "zip code"], 9⟩
      (by decide) (by decide)).2 (by decide) (by decide) ⟨"zip", by decide, by decide⟩

/-! ## FieldMapper.findBestMatch and mapFieldsToData
(src/content.js, lines 338-377) -/

/-- The best match record built by findBestMatch: key, value from the
user data record, and confidence. -/
structure BestMatch where
  key : String
  value : String
  confidence : Nat
deriving DecidableEq, Repr

/-- One step of the forEach over Object.keys(activeMappings) inside
findBestMatch.  The accumulator is (bestMatch, highestScore); a data
key is considered only when its value in the record is truthy (a
non-empty string), and it replaces the current best only on a strictly
greater score. -/
def fbmStep (field : Field) (userData : List (String × String))
    (mappings : List (String × AliasMapping))
    (acc : Option BestMatch × Nat) (km : String × AliasMapping) :
    Option BestMatch × Nat :=
  match lookupData userData km.1 with
  | some v =>
    if v != "" then
      let score := calculateMatchScore field km.1 mappings
      if acc.2 < score then (some ⟨km.1, v, score⟩, score) else acc
    else acc
  | none => acc

/-- FieldMapper.findBestMatch: fold the step over the insertion-ordered
active mapping table, starting from (null, 0). -/
def findBestMatch (field : Field) (userData : List (String × String))
    (mappings : List (String × AliasMapping)) : Option BestMatch :=
  (mappings.foldl (fbmStep field userData mappings) (none, 0)).1

/-- One candidate produced by mapFieldsToData. -/
structure MappedField where
  field : Field
  dataField : String
  value : String
  confidence : Nat
deriving DecidableEq, Repr

/-- Stable insertion of one candidate behind every already-placed
candidate of greater-or-equal confidence: the stable descending order
JS Array.prototype.sort produces with the comparator
(a, b) => b.confidence - a.confidence. -/
def insertByConfDesc (a : MappedField) : List MappedField → List MappedField
  | [] => [a]
  | b :: t => if b.confidence < a.confidence then a :: b :: t else b :: insertByConfDesc a t

/-- Stable sort by descending confidence (left-to-right insertion). -/
def sortByConfDesc (l : List MappedField) : List MappedField :=
  l.foldl (fun acc a => insertByConfDesc a acc) []

/-- FieldMapper.mapFieldsToData: collect each field's best match into
a candidate and sort the candidates by descending confidence. -/
def mapFieldsToData (fields : List Field) (userData : List (String × String))
    (mappings : List (String × AliasMapping)) : List MappedField :=
  sortByConfDesc (fields.filterMap fun field =>
    (findBestMatch field userData mappings).map fun d =>
      { field := field, dataField := d.key, value := d.value, confidence := d.confidence })

theorem mem_insertByConfDesc {x a : MappedField} :
    ∀ {l : List MappedField}, x ∈ insertByConfDesc a l → x = a ∨ x ∈ l := by
  intro l
  induction l with
  | nil => intro h; simpa [insertByConfDesc] using h
  | cons b t ih =>
    intro h
    unfold insertByConfDesc at h
    by_cases hc : b.confidence < a.confidence
    · rw [if_pos hc] at h
      rcases List.mem_cons.mp h with h | h
      · exact Or.inl h
      · exact Or.inr h
    · rw [if_neg hc] at h
      rcases List.mem_cons.mp h with h | h
      · exact Or.inr (h ▸ List.mem_cons_self b t)
      · rcases ih h with h | h
        · exact Or.inl h
        · exact Or.inr (List.mem_cons_of_mem b h)

theorem mem_sortByConfDesc_aux {x : MappedField} :
    ∀ (l acc : List MappedField),
      x ∈ l.foldl (fun acc a => insertByConfDesc a acc) acc → x ∈ acc ∨ x ∈ l := by
  intro l
  induction l with
  | nil => intro acc h; exact Or.inl h
  | cons a t ih =>
    intro acc h
    rcases ih (insertByConfDesc a acc) h with h | h
    · rcases mem_insertByConfDesc h with h | h
      · exact Or.inr (h ▸ List.mem_cons_self a t)
      · exact Or.inl h
    · exact Or.inr (List.mem_cons_of_mem a h)

theorem mem_sortByConfDesc {x : MappedField} {l : List MappedField}
    (h : x ∈ sortByConfDesc l) : x ∈ l := by
  rcases mem_sortByConfDesc_aux l [] h with h | h
  · exact absurd h (List.not_mem_nil x)
  · exact h

/-! ## C8: empty-string data values never match -/

theorem fbmStep_none (field : Field) (userData : List (String × String))
    (mappings : List (String × AliasMapping)) (acc : Option BestMatch × Nat)
    (km : String × AliasMapping) (hlk : lookupData userData km.1 = none) :
    fbmStep field userData mappings acc km = acc := by
  unfold fbmStep
  rw [hlk]

theorem fbmStep_some (field : Field) (userData : List (String × String))
    (mappings : List (String × AliasMapping)) (acc : Option BestMatch × Nat)
    (km : String × AliasMapping) (v : String) (hlk : lookupData userData km.1 = some v) :
    fbmStep field userData mappings acc km =
      if v != "" then
        if acc.2 < calculateMatchScore field km.1 mappings then
          (some ⟨km.1, v, calculateMatchScore field km.1 mappings⟩,
            calculateMatchScore field km.1 mappings)
        else acc
      else acc := by
  unfold fbmStep
  rw [hlk]

theorem fbmStep_value_invariant (field : Field) (userData : List (String × String))
    (mappings : List (String × AliasMapping)) :
    ∀ (l : List (String × AliasMapping)) (acc : Option BestMatch × Nat),
      (∀ b, acc.1 = some b → b.value ≠ "") →
      ∀ b, (l.foldl (fbmStep field userData mappings) acc).1 = some b → b.value ≠ "" := by
  intro l
  induction l with
  | nil => intro acc hacc; exact hacc
  | cons km t ih =>
    intro acc hacc
    refine ih (fbmStep field userData mappings acc km) ?_
    intro b hb
    rcases hlk : lookupData userData km.1 with _ | v
    · rw [fbmStep_none field userData mappings acc km hlk] at hb
      exact hacc b hb
    · rw [fbmStep_some field userData mappings acc km v hlk] at hb
      by_cases hv : v != ""
      · rw [if_pos hv] at hb
        by_cases hs : acc.2 < calculateMatchScore field km.1 mappings
        · rw [if_pos hs] at hb
          have hb2 : b = ⟨km.1, v, calculateMatchScore field km.1 mappings⟩ := by
            have : some (⟨km.1, v, calculateMatchScore field km.1 mappings⟩ : BestMatch)
                = some b := hb
            exact (Option.some.injEq _ _ ▸ this).symm
          rw [hb2]
          simpa using hv
        · rw [if_neg hs] at hb
          exact hacc b hb
      · rw [if_neg hv] at hb
        exact hacc b hb

theorem fbmStep_skip (field : Field) (userData : List (String × String))
    (mappings : List (String × AliasMapping)) (km : String × AliasMapping)
    (h : lookupData userData km.1 = none ∨ lookupData userData km.1 = some "")
    (acc : Option BestMatch × Nat) :
    fbmStep field userData mappings acc km = acc := by
  rcases h with h | h
  · exact fbmStep_none field userData mappings acc km h
  · rw [fbmStep_some field userData mappings acc km "" h]
    simp

theorem fbm_foldl_skip_all (field : Field) (userData : List (String × String))
    (mappings : List (String × AliasMapping)) :
    ∀ l : List (String × AliasMapping),
      (∀ km ∈ l, lookupData userData km.1 = none ∨ lookupData userData km.1 = some "") →
      l.foldl (fbmStep field userData mappings) (none, 0) =
        ((none : Option BestMatch), 0) := by
  intro l
  induction l with
  | nil => intro _; rfl
  | cons km t ih =>
    intro hall
    rw [List.foldl_cons,
      fbmStep_skip field userData mappings km (hall km (List.mem_cons_self km t)) (none, 0)]
    exact ih fun km hm => hall km (List.mem_cons_of_mem _ hm)

/-- C8: a data key whose value in the user record is absent or the
empty string is never considered by findBestMatch, so a field whose
data keys all have empty values yields no candidate, and no candidate
produced by mapFieldsToData ever carries an empty value. -/
theorem findBestMatch_ignores_empty_values :
    (∀ (field : Field) (userData : List (String × String))
        (mappings : List (String × AliasMapping)),
      (∀ km ∈ mappings,
        lookupData userData km.1 = none ∨ lookupData userData km.1 = some "") →
      findBestMatch field userData mappings = none)
    ∧ (∀ (fields : List Field) (userData : List (String × String))
        (mappings : List (String × AliasMapping)) (mf : MappedField),
      mf ∈ mapFieldsToData fields userData mappings → mf.value ≠ "") := by
  constructor
  · intro field userData mappings hall
    unfold findBestMatch
    rw [fbm_foldl_skip_all field userData mappings mappings hall]
  · intro fields userData mappings mf hmf
    have h1 := mem_sortByConfDesc hmf
    obtain ⟨field, _, hmap⟩ := List.mem_filterMap.mp h1
    rcases hb : findBestMatch field userData mappings with _ | b
    · rw [hb] at hmap; simp at hmap
    · rw [hb] at hmap
      simp only [Option.map_some', Option.some.injEq] at hmap
      have hval : b.value ≠ "" := by
        unfold findBestMatch at hb
        exact fbmStep_value_invariant field userData mappings mappings (none, 0)
          (by intro b hb0; simp at hb0) b hb
      rw [← hmap]
      exact hval

/-- A concrete email text field used by witnesses. -/
def emailField : Field := { name := "email", identifier := "email" }

/-- The candidate the email field receives from the record email to
a at b dot com under the built-in table (exact alias match, 100). -/
def emailCandidate : MappedField :=
  { field := emailField, dataField := "email", value := "a@b.com", confidence := 100 }

/-- Witness for C8: with only an empty email value in the record the
email field produces no match, and a concrete singleton run with a
non-empty value produces only non-empty candidates. -/
theorem findBestMatch_ignores_empty_values_witness :
    findBestMatch emailField [("email", "")] defaultMappings = none
    ∧ emailCandidate.value ≠ "" := by
  constructor
  · exact findBestMatch_ignores_empty_values.1 emailField [("email", "")] defaultMappings
      (by decide)
  · exact findBestMatch_ignores_empty_values.2 [emailField] [("email", "a@b.com")]
      defaultMappings emailCandidate (by decide)

/-! ## C9: ties are broken by mapping-table order -/

/-- The truthiness test userData[dataKey] of findBestMatch: the key is
present with a non-empty value. -/
def truthyLookup (userData : List (String × String)) (key : String) : Bool :=
  match lookupData userData key with
  | some v => v != ""
  | none => false

theorem fbm_foldl_lt {field : Field} {userData : List (String × String)}
    {mappings : List (String × AliasMapping)} {s : Nat} :
    ∀ (l : List (String × AliasMapping)) (acc : Option BestMatch × Nat),
      acc.2 < s →
      (∀ km ∈ l, truthyLookup userData km.1 = true →
        calculateMatchScore field km.1 mappings < s) →
      (l.foldl (fbmStep field userData mappings) acc).2 < s := by
  intro l
  induction l with
  | nil => intro acc hacc _; exact hacc
  | cons km t ih =>
    intro acc hacc hall
    refine ih (fbmStep field userData mappings acc km) ?_
      (fun km hm => hall km (List.mem_cons_of_mem _ hm))
    rcases hlk : lookupData userData km.1 with _ | v
    · rw [fbmStep_none field userData mappings acc km hlk]
      exact hacc
    · rw [fbmStep_some field userData mappings acc km v hlk]
      by_cases hv : v != ""
      · rw [if_pos hv]
        by_cases hs : acc.2 < calculateMatchScore field km.1 mappings
        · rw [if_pos hs]
          show calculateMatchScore field km.1 mappings < s
          refine hall km (List.mem_cons_self km t) ?_
          unfold truthyLookup
          rw [hlk]
          exact hv
        · rw [if_neg hs]
          exact hacc
      · rw [if_neg hv]
        exact hacc

theorem fbm_foldl_keep {field : Field} {userData : List (String × String)}
    {mappings : List (String × AliasMapping)} {s : Nat} {b : Option BestMatch} :
    ∀ l : List (String × AliasMapping),
      (∀ km ∈ l, truthyLookup userData km.1 = true →
        calculateMatchScore field km.1 mappings ≤ s) →
      l.foldl (fbmStep field userData mappings) (b, s) = (b, s) := by
  intro l
  induction l with
  | nil => intro _; rfl
  | cons km t ih =>
    intro hall
    have hstep : fbmStep field userData mappings (b, s) km = (b, s) := by
      rcases hlk : lookupData userData km.1 with _ | v
      · exact fbmStep_none field userData mappings (b, s) km hlk
      · rw [fbmStep_some field userData mappings (b, s) km v hlk]
        by_cases hv : v != ""
        · rw [if_pos hv]
          have hle := hall km (List.mem_cons_self km t)
            (by unfold truthyLookup; rw [hlk]; exact hv)
          rw [if_neg (Nat.not_lt.mpr hle)]
        · rw [if_neg hv]
    rw [List.foldl_cons, hstep]
    exact ih fun km hm => hall km (List.mem_cons_of_mem _ hm)

/-- C9: findBestMatch breaks score ties by mapping-table order.  If k1
is the first considered key achieving the top score s (every earlier
considered key scores strictly below s, every later one at most s, and
s is positive), the produced match carries k1 with its value and
confidence s, even when later keys also reach s: a candidate replaces
the current best only on a strictly greater score. -/
theorem findBestMatch_tie_first_key (field : Field)
    (userData : List (String × String)) (pre rest : List (String × AliasMapping))
    (k1 : String) (m1 : AliasMapping) (v1 : String) (s : Nat)
    (hlk : lookupData userData k1 = some v1) (hv1 : v1 ≠ "")
    (hs : calculateMatchScore field k1 (pre ++ (k1, m1) :: rest) = s) (hpos : 0 < s)
    (hpre : ∀ km ∈ pre, truthyLookup userData km.1 = true →
      calculateMatchScore field km.1 (pre ++ (k1, m1) :: rest) < s)
    (hrest : ∀ km ∈ rest, truthyLookup userData km.1 = true →
      calculateMatchScore field km.1 (pre ++ (k1, m1) :: rest) ≤ s) :
    findBestMatch field userData (pre ++ (k1, m1) :: rest) = some ⟨k1, v1, s⟩ := by
  unfold findBestMatch
  rw [List.foldl_append, List.foldl_cons]
  have hlt : (pre.foldl (fbmStep field userData (pre ++ (k1, m1) :: rest)) (none, 0)).2 < s :=
    fbm_foldl_lt pre (none, 0) hpos hpre
  have hlk2 : lookupData userData (k1, m1).1 = some v1 := hlk
  have hs2 : calculateMatchScore field (k1, m1).1 (pre ++ (k1, m1) :: rest) = s := hs
  rw [fbmStep_some field userData (pre ++ (k1, m1) :: rest) _ (k1, m1) v1 hlk2,
    if_pos (show (v1 != "") = true by simpa using hv1), hs2, if_pos hlt,
    fbm_foldl_keep rest hrest]

/-- Witness for C9: values for both phone (priority 9) and mobile
(priority 9) are present and a field labelled mobile scores 81 for
both by the smart rule; phone precedes mobile in the built-in table,
so the phone key wins the tie. -/
theorem findBestMatch_tie_first_key_witness :
    findBestMatch { label := "mobile", identifier := "mobile" }
      [("phone", "111"), ("mobile", "222")] defaultMappings =
      some ⟨"phone", "111", 90⟩ := by
  have := findBestMatch_tie_first_key { label := "mobile", identifier := "mobile" }
    [("phone", "111"), ("mobile", "222")]
    [("firstName", ⟨["firstname", "first_name", "fname", "given_name", "first-name",
        "first name", "name first"], 10⟩),
     ("lastName", ⟨["lastname", "last_name", "lname", "surname", "last-name",
        "last name", "family name"], 10⟩),
     ("email", ⟨["email", "email_address", "e_mail", "e-mail", "mail", "email address"], 10⟩)]
    [("street", ⟨["street", "address", "address1", "street_address", "addr1",
        "street address"], 9⟩),
     ("city", ⟨["city", "town", "locality"], 9⟩),
     ("state", ⟨["state", "province", "region"], 9⟩),
     ("zipCode", ⟨["zip", "zipcode", "zip_code", "postal", "postal_code", "postcode",
        "zip code"], 9⟩),
     ("country", ⟨["country", "nation"], 8⟩),
     ("fullName", ⟨["full name", "fullname", "full_name", "name", "your name",
        "complete name"], 10⟩),
     ("dateOfBirth", ⟨["date of birth", "birth date", "birthday", "dob", "birthdate",
        "date birth"], 9⟩),
     ("gender", ⟨["gender", "sex"], 8⟩),
     ("mobile", ⟨["mobile", "mobile_number", "mobile number", "cell", "cellular"], 9⟩),
     ("linkedIn", ⟨["linkedin", "linkedin_profile", "linkedin profile"], 7⟩)]
    "phone" ⟨["phone", "telephone", "tel", "phone_number", "mobile", "cell",
      "phone number"], 9⟩ "111" 90
    (by decide) (by decide) (by decide) (by decide) (by decide) (by decide)
  exact this

/-! ## JavaScript numbers and parseFloat (for AutoFiller.fillNumberField)

A JS number reachable from parseFloat on a decimal literal is either
NaN (Option.none below), an infinity, or an exactly-representable
decimal mantissa * 10 ^ exp10.  The binary-double rounding of the host
is abstracted away; comparisons and rendering below are exact. -/

/-- A non-NaN JavaScript number as produced by parseFloat. -/
inductive JSNum where
  | finite (mantissa exp10 : Int)
  | posInf
  | negInf
deriving DecidableEq, Repr

/-- Numeric value of a digit run (most significant first). -/
def digitsVal (ds : List Char) : Nat :=
  ds.foldl (fun n c => n * 10 + (c.toNat - '0'.toNat)) 0

/-- The optional exponent suffix of a decimal literal: e or E, an
optional sign, then digits; an exponent marker not followed by digits
contributes nothing (parseFloat stops at the longest valid prefix). -/
def parseExponent : List Char → Int
  | [] => 0
  | c :: r =>
    if c == 'e' || c == 'E' then
      match r with
      | '+' :: r2 =>
        let ed := r2.takeWhile Char.isDigit
        if ed.isEmpty then 0 else (digitsVal ed : Int)
      | '-' :: r2 =>
        let ed := r2.takeWhile Char.isDigit
        if ed.isEmpty then 0 else -(digitsVal ed : Int)
      | _ =>
        let ed := r.takeWhile Char.isDigit
        if ed.isEmpty then 0 else (digitsVal ed : Int)
    else 0

/-- The unsigned part of parseFloat: the literal Infinity, or integer
digits, an optional fraction, and an optional exponent.  NaN (no
digits at all) is none. -/
def parseUnsigned (sign : Int) (cs : List Char) : Option JSNum :=
  if listStartsWith cs "Infinity".data then
    some (if 0 ≤ sign then JSNum.posInf else JSNum.negInf)
  else
    let ip := cs.takeWhile Char.isDigit
    let r1 := cs.dropWhile Char.isDigit
    let fr := match r1 with
      | '.' :: r => (r.takeWhile Char.isDigit, r.dropWhile Char.isDigit)
      | _ => ([], r1)
    if ip.isEmpty && fr.1.isEmpty then none
    else
      some (JSNum.finite (sign * (digitsVal (ip ++ fr.1) : Int))
        (-(fr.1.length : Int) + parseExponent fr.2))

/-- JS parseFloat: skip leading whitespace, read an optional sign,
then the longest valid decimal (or Infinity) prefix; no valid prefix
gives NaN (none). -/
def parseFloat (s : String) : Option JSNum :=
  match s.data.dropWhile jsWhitespaceB with
  | '+' :: r => parseUnsigned 1 r
  | '-' :: r => parseUnsigned (-1) r
  | cs => parseUnsigned 1 cs

/-- Strict comparison of two finite decimals m1 * 10 ^ e1 < m2 * 10 ^ e2
by scaling to the smaller exponent. -/
def finLtB (m1 e1 m2 e2 : Int) : Bool :=
  if e2 ≤ e1 then m1 * 10 ^ (e1 - e2).toNat < m2 else m1 < m2 * 10 ^ (e2 - e1).toNat

/-- The JS less-than on non-NaN numbers. -/
def JSNum.ltB : JSNum → JSNum → Bool
  | .finite m1 e1, .finite m2 e2 => finLtB m1 e1 m2 e2
  | .finite _ _, .posInf => true
  | .negInf, .finite _ _ => true
  | .negInf, .posInf => true
  | _, _ => false

/-- Normalization loop of the decimal renderer: shift trailing zeros
of the mantissa into the exponent while the exponent is negative (the
fuel bounds the number of digits and is never exhausted on parseFloat
outputs). -/
def stripTrailingZeros : Nat → Int → Int → Int × Int
  | 0, m, e => (m, e)
  | fuel + 1, m, e =>
    if e < 0 && m % 10 == 0 && m != 0 then stripTrailingZeros fuel (m / 10) (e + 1)
    else (m, e)

/-- JS Number.prototype.toString for the numbers fillNumberField can
assign: Infinity, -Infinity, or the plain decimal rendering without
trailing fraction zeros.  (JS switches to exponent notation only
beyond 1e21 or below 1e-7, which the claims never exercise.) -/
def JSNum.render : JSNum → String
  | .posInf => "Infinity"
  | .negInf => "-Infinity"
  | .finite m e =>
    if m == 0 then "0"
    else
      let me := stripTrailingZeros 400 m e
      if 0 ≤ me.2 then toString (me.1 * 10 ^ me.2.toNat)
      else
        let k := (-me.2).toNat
        let n := me.1.natAbs
        let fpStr := toString (n % 10 ^ k)
        (if me.1 < 0 then "-" else "") ++ toString (n / 10 ^ k) ++ "." ++
          String.mk (List.replicate (k - fpStr.length) '0') ++ fpStr

/-! ## AutoFiller fill strategies (src/content.js, lines 509-940)

Each strategy returns Except String (Elem × Bool): Except.error models
a thrown exception (with the source's wrapped message), and the pair
carries the updated element and the boolean the strategy returns.
triggerChangeEvents dispatches synthetic input/change events, which
carry no engine-visible state and are not modelled; the fill-animation
CSS class is likewise presentation-only. -/

/-- Prefix an error message, as the catch blocks of the strategies
wrap and re-throw. -/
def wrapErr (pre : String) : Except String (Elem × Bool) → Except String (Elem × Bool)
  | .error m => .error (pre ++ m)
  | .ok r => .ok r

/-- AutoFiller.focusElement: elements without a focus method succeed
only for divs (via click); otherwise focus is called and success means
the element actually became the active element. -/
def focusElement (elem : Elem) : Bool :=
  if !elem.hasFocusMethod then elem.tagName == "div"
  else elem.focusSucceeds

/-- AutoFiller.fillTextField: focus (throwing on failure), trim, apply
the maxLength truncation (the truncation notice goes to console.warn
only), assign, return true. -/
def fillTextField (elem : Elem) (value : String) : Except String (Elem × Bool) :=
  wrapErr "Text field fill failed: " <|
    if !focusElement elem then .error "Could not focus on text field"
    else
      let stringValue := jsTrim value
      if 0 < elem.maxLength && elem.maxLength < (stringValue.length : Int) then
        .ok ({ elem with value := jsSubstringTo stringValue elem.maxLength.toNat }, true)
      else .ok ({ elem with value := stringValue }, true)

/-- AutoFiller.fillTextareaField: identical to the text strategy up to
the wrapped message. -/
def fillTextareaField (elem : Elem) (value : String) : Except String (Elem × Bool) :=
  wrapErr "Textarea field fill failed: " <|
    if !focusElement elem then .error "Could not focus on textarea field"
    else
      let stringValue := jsTrim value
      if 0 < elem.maxLength && elem.maxLength < (stringValue.length : Int) then
        .ok ({ elem with value := jsSubstringTo stringValue elem.maxLength.toNat }, true)
      else .ok ({ elem with value := stringValue }, true)

/-- AutoFiller.fillEmailField: the permissive email regex only feeds a
console warning (fill proceeds regardless), so the strategy is the
text fill of the trimmed value. -/
def fillEmailField (elem : Elem) (value : String) : Except String (Elem × Bool) :=
  wrapErr "Email field fill failed: " (fillTextField elem (jsTrim value))

/-- The character class kept by the phone cleaning regex replace
(everything except digits, plus, hyphen, whitespace and parentheses is
removed). -/
def phoneKeepChar (c : Char) : Bool :=
  c.isDigit || c == '+' || c == '-' || jsWhitespaceB c || c == '(' || c == ')'

/-- AutoFiller.fillPhoneField: trim, strip the disallowed characters,
then the text fill. -/
def fillPhoneField (elem : Elem) (value : String) : Except String (Elem × Bool) :=
  wrapErr "Phone field fill failed: " <|
    fillTextField elem (String.mk ((jsTrim value).data.filter phoneKeepChar))

/-- The below-minimum rejection test of fillNumberField: element.min
is truthy (non-empty) and the value compares below it; a NaN minimum
never rejects (JS comparisons with NaN are false). -/
def belowMinB (elem : Elem) (n : JSNum) : Bool :=
  elem.minAttr != "" &&
    (match parseFloat elem.minAttr with
      | some m => JSNum.ltB n m
      | none => false)

/-- The above-maximum rejection test of fillNumberField. -/
def aboveMaxB (elem : Elem) (n : JSNum) : Bool :=
  elem.maxAttr != "" &&
    (match parseFloat elem.maxAttr with
      | some m => JSNum.ltB m n
      | none => false)

/-- AutoFiller.fillNumberField: parse as float, return false on NaN or
on a declared min/max violation, otherwise assign the stringified
number via the text fill. -/
def fillNumberField (elem : Elem) (value : String) : Except String (Elem × Bool) :=
  wrapErr "Number field fill failed: " <|
    match parseFloat value with
    | none => .ok (elem, false)
    | some n =>
      if belowMinB elem n then .ok (elem, false)
      else if aboveMaxB elem n then .ok (elem, false)
      else fillTextField elem (JSNum.render n)

/-- The scheme test of fillUrlField (the anchored regex
https question-mark colon slash slash). -/
def hasHttpScheme (s : String) : Bool :=
  jsStartsWith s "http://" || jsStartsWith s "https://"

/-- AutoFiller.fillUrlField: trim; prepend the https scheme when the
non-empty value lacks one; then the text fill. -/
def fillUrlField (elem : Elem) (value : String) : Except String (Elem × Bool) :=
  wrapErr "URL field fill failed: " <|
    let stringValue := jsTrim value
    if stringValue != "" && !hasHttpScheme stringValue then
      fillTextField elem (jsConcat "https://" stringValue)
    else fillTextField elem stringValue

/-- AutoFiller.fillSelectField: focus, require options, then first
match among exact value, case-insensitive exact text, case-insensitive
substring text; assign the matched option's value, or return false. -/
def fillSelectField (elem : Elem) (value : String) : Except String (Elem × Bool) :=
  wrapErr "Select field fill failed: " <|
    if !focusElement elem then .error "Could not focus on select field"
    else if elem.options.isEmpty then .error "Select field has no options"
    else
      let stringValue := jsTrim value
      let hit := (elem.options.find? fun o => o.1 == stringValue).orElse fun _ =>
        ((elem.options.find? fun o =>
            jsToLower (jsTrim o.2) == jsToLower stringValue).orElse fun _ =>
          elem.options.find? fun o =>
            jsIncludes (jsToLower (jsTrim o.2)) (jsToLower stringValue))
      match hit with
      | some o => .ok ({ elem with value := o.1 }, true)
      | none => .ok (elem, false)

/-- AutoFiller.fillDivTextbox: click (no engine-visible state), then
set the text content when content-editable, else a nested input's
value when present, else the text content. -/
def fillDivTextbox (elem : Elem) (value : String) : Except String (Elem × Bool) :=
  wrapErr "Div textbox fill failed: " <|
    let stringValue := jsTrim value
    if elem.isContentEditable then .ok ({ elem with textContent := stringValue }, true)
    else
      match elem.nestedInputValue with
      | some _ => .ok ({ elem with nestedInputValue := some stringValue }, true)
      | none => .ok ({ elem with textContent := stringValue }, true)

/-- AutoFiller.fillCombobox: clicks to open the dropdown and schedules
an asynchronous option scan that is never awaited; synchronously the
element is unchanged and the strategy always reports success (the
accepted fire-and-forget limitation of the source). -/
def fillCombobox (elem : Elem) (_value : String) : Except String (Elem × Bool) :=
  wrapErr "Combobox fill failed: " (.ok (elem, true))

/-- AutoFiller.fillListbox: delegates to the combobox strategy. -/
def fillListbox (elem : Elem) (value : String) : Except String (Elem × Bool) :=
  wrapErr "Listbox fill failed: " (fillCombobox elem value)

/-- AutoFiller.fillRadioGroup: click the first member radio whose
label mutually substring-matches the value (case-insensitively);
return false when none does. -/
def fillRadioGroup (elem : Elem) (value : String) : Except String (Elem × Bool) :=
  wrapErr "Radio group fill failed: " <|
    let stringValue := jsToLower (jsTrim value)
    match elem.radioLabels.find? fun lbl =>
        jsIncludes (jsToLower lbl) stringValue || jsIncludes stringValue (jsToLower lbl) with
    | some lbl => .ok ({ elem with selectedRadio := some lbl }, true)
    | none => .ok (elem, false)

/-- AutoFiller.setFieldValue: dispatch on the field type; unknown
types fall through to the text strategy; any escaping error is wrapped
with the field type. -/
def setFieldValue (elem : Elem) (value : String) (fieldType : String) :
    Except String (Elem × Bool) :=
  wrapErr ("Failed to set " ++ fieldType ++ " field value: ") <|
    if fieldType == "select" then fillSelectField elem value
    else if fieldType == "textarea" then fillTextareaField elem value
    else if fieldType == "email" then fillEmailField elem value
    else if fieldType == "tel" || fieldType == "phone" then fillPhoneField elem value
    else if fieldType == "number" then fillNumberField elem value
    else if fieldType == "url" then fillUrlField elem value
    else if fieldType == "textbox" then fillDivTextbox elem value
    else if fieldType == "combobox" then fillCombobox elem value
    else if fieldType == "listbox" then fillListbox elem value
    else if fieldType == "radiogroup" then fillRadioGroup elem value
    else fillTextField elem value

/-- AutoFiller.fillSingleField: the preconditions checked before any
mutation (detached element throws, disabled / read-only / zero-size
produce a false return, i.e. a skip), then the dispatched strategy;
an escaping error is wrapped with the field identifier.  The inner
3-second race of setFieldValueSafely cannot fire on the synchronous
modelled strategies and the outer 5-second race is the loop-level
oracle of RunCand below. -/
def fillSingleField (field : Field) (value : String) : Except String (Field × Bool) :=
  if !field.element.attached then .error "Field element no longer exists in the page"
  else if field.element.disabled then .ok (field, false)
  else if field.element.readOnly then .ok (field, false)
  else if field.element.width == 0 || field.element.height == 0 then .ok (field, false)
  else
    match setFieldValue field.element value field.type with
    | .ok (e2, b) => .ok ({ field with element := e2 }, b)
    | .error msg => .error ("Failed to fill field " ++ field.identifier ++ ": " ++ msg)

/-! ## The fill loop and orchestration
(ContentScriptController.performAutoFill, src/content.js lines 1348-1448) -/

/-- The FillResult record of one run. -/
structure FillResults where
  fieldsDetected : Nat := 0
  fieldsFilled : Nat := 0
  fieldsSkipped : Nat := 0
  errors : List (String × String) := []
  warnings : List String := []
deriving DecidableEq, Repr

/-- One candidate as processed by the fill loop: the mapped field and
value, plus the wall-clock milliseconds its fill consumes and the
oracle for whether the 5-second per-field race fires (only a hanging
page environment can make the synchronous strategies exceed it). -/
structure RunCand where
  field : Field
  value : String
  duration : Nat := 0
  timesOut : Bool := false
deriving DecidableEq, Repr

/-- The warning pushed when the 30-second global budget is exhausted. -/
def timeoutWarning : String :=
  "Auto-fill timed out - some fields may not have been filled"

/-- One iteration body of the fill loop: the detached-element
pre-check records an error and a skip; a per-field timeout or any
thrown error records an error (timeout messages normalized) and a
skip; a true return counts a fill; a false return counts a skip with
a could-not-fill warning. -/
def processOne (c : RunCand) (r : FillResults) : FillResults :=
  if !c.field.element.attached then
    { r with
      errors := r.errors ++ [(c.field.identifier, "Field no longer exists in page")],
      fieldsSkipped := r.fieldsSkipped + 1 }
  else if c.timesOut then
    { r with
      errors := r.errors ++ [(c.field.identifier, "Field fill timeout")],
      fieldsSkipped := r.fieldsSkipped + 1 }
  else
    match fillSingleField c.field c.value with
    | .ok (_, true) => { r with fieldsFilled := r.fieldsFilled + 1 }
    | .ok (_, false) =>
      { r with
        fieldsSkipped := r.fieldsSkipped + 1,
        warnings := r.warnings ++ ["Could not fill field: " ++ c.field.identifier] }
    | .error msg =>
      { r with
        errors := r.errors ++ [(c.field.identifier,
          if jsIncludes msg "timeout" then "Field fill timeout" else msg)],
        fieldsSkipped := r.fieldsSkipped + 1 }

/-- Wall-clock time one iteration consumes: nothing for the detached
pre-check (continue skips the inter-field delay), the full 5-second
race on a per-field timeout, the fill duration plus the fixed 100 ms
inter-field delay on a returning fill, and the bare duration when an
exception jumps over the delay. -/
def stepTime (c : RunCand) : Nat :=
  if !c.field.element.attached then 0
  else if c.timesOut then 5000
  else
    match fillSingleField c.field c.value with
    | .ok _ => c.duration + 100
    | .error _ => c.duration

/-- The candidate loop of performAutoFill: at each iteration the
30-second global budget is checked first; exhaustion appends the
single timeout warning and stops, leaving all recorded outcomes
untouched; otherwise the candidate is processed and iteration
continues. -/
def fillLoop : List RunCand → Nat → FillResults → FillResults
  | [], _, r => r
  | c :: rest, elapsed, r =>
    if 30000 < elapsed then { r with warnings := r.warnings ++ [timeoutWarning] }
    else fillLoop rest (elapsed + stepTime c) (processOne c r)

/-- ContentScriptController.performAutoFill: detect (the scanned
field list is the input), abort on zero fields or zero candidates,
then run the loop from a zero clock in the ideal environment
(instant fills, no per-field hangs). -/
def performAutoFill (fields : List Field) (userData : List (String × String))
    (mappings : List (String × AliasMapping)) : Except String FillResults :=
  if fields.isEmpty then .error "No fillable fields detected on this page"
  else
    let mappedFields := mapFieldsToData fields userData mappings
    if mappedFields.isEmpty then
      .error "No matching fields found for available data. Try customizing field mappings in settings."
    else
      .ok (fillLoop (mappedFields.map fun mf => { field := mf.field, value := mf.value }) 0
        { fieldsDetected := fields.length })

/-- ContentScriptController.performAutoFillWithErrorHandling: rewrite
DOM / timeout / permission failure messages, pass others through. -/
def performAutoFillWithErrorHandling (fields : List Field)
    (userData : List (String × String)) (mappings : List (String × AliasMapping)) :
    Except String FillResults :=
  match performAutoFill fields userData mappings with
  | .ok r => .ok r
  | .error msg =>
    if jsIncludes msg "DOM" then
      .error "Page structure changed during auto-fill. Please refresh and try again."
    else if jsIncludes msg "timeout" then
      .error "Auto-fill process timed out. The page may be slow to respond."
    else if jsIncludes msg "permission" then
      .error "Cannot access form fields due to page restrictions."
    else .error msg

/-- The response sent back by handlePerformAutoFill: a success flag,
the filled count and results on success, and a user message plus a
machine-readable errorType on failure. -/
structure AutoFillResponse where
  success : Bool
  fieldsCount : Option Nat := none
  results : Option FillResults := none
  error : Option String := none
  errorType : Option String := none
deriving DecidableEq, Repr

/-- The failure classification of handlePerformAutoFill's catch block:
a user-facing message and an errorType derived from the thrown
message. -/
def classifyAutoFillError (msg : String) : String × String :=
  if jsIncludes msg "loading" then
    ("Page is still loading. Please wait and try again.", "PAGE_NOT_READY")
  else if jsIncludes msg "No fillable fields" then
    ("No fillable form fields found on this page.", "NO_FIELDS")
  else if jsIncludes msg "No matching fields" then
    ("No form fields match your data. Try customizing field mappings.", "NO_MATCHES")
  else (msg, "AUTOFILL_ERROR")

/-- A failure response: success false, classified message and type,
and no results or counts. -/
def failureResponse (msg : String) : AutoFillResponse :=
  { success := false, error := some (classifyAutoFillError msg).1,
    errorType := some (classifyAutoFillError msg).2 }

/-- ContentScriptController.handlePerformAutoFill: validate the user
data and document readiness, run the fill, and answer with either the
results or a classified failure (which carries no result object). -/
def handlePerformAutoFill (docReady : Bool) (userData : List (String × String))
    (fields : List Field) (mappings : List (String × AliasMapping)) : AutoFillResponse :=
  if userData.isEmpty then failureResponse "User data is empty"
  else if !docReady then failureResponse "Page is still loading. Please wait and try again."
  else
    match performAutoFillWithErrorHandling fields userData mappings with
    | .ok r => { success := true, fieldsCount := some r.fieldsFilled, results := some r }
    | .error msg => failureResponse msg

/-! ## Equations for one loop iteration -/

theorem processOne_timeout (c : RunCand) (r : FillResults)
    (hatt : c.field.element.attached = true) (ht : c.timesOut = true) :
    processOne c r = { r with
      errors := r.errors ++ [(c.field.identifier, "Field fill timeout")],
      fieldsSkipped := r.fieldsSkipped + 1 } := by
  unfold processOne
  rw [hatt, ht]
  simp

theorem processOne_error (c : RunCand) (r : FillResults) (msg : String)
    (hatt : c.field.element.attached = true) (ht : c.timesOut = false)
    (hfill : fillSingleField c.field c.value = Except.error msg) :
    processOne c r = { r with
      errors := r.errors ++ [(c.field.identifier,
        if jsIncludes msg "timeout" then "Field fill timeout" else msg)],
      fieldsSkipped := r.fieldsSkipped + 1 } := by
  unfold processOne
  rw [hatt, ht, hfill]
  simp

theorem processOne_filled (c : RunCand) (r : FillResults) (f2 : Field)
    (hatt : c.field.element.attached = true) (ht : c.timesOut = false)
    (hfill : fillSingleField c.field c.value = Except.ok (f2, true)) :
    processOne c r = { r with fieldsFilled := r.fieldsFilled + 1 } := by
  unfold processOne
  rw [hatt, ht, hfill]
  simp

theorem processOne_refused (c : RunCand) (r : FillResults) (f2 : Field)
    (hatt : c.field.element.attached = true) (ht : c.timesOut = false)
    (hfill : fillSingleField c.field c.value = Except.ok (f2, false)) :
    processOne c r = { r with
      fieldsSkipped := r.fieldsSkipped + 1,
      warnings := r.warnings ++ ["Could not fill field: " ++ c.field.identifier] } := by
  unfold processOne
  rw [hatt, ht, hfill]
  simp

/-! ## C2: failure isolation in the fill loop -/

/-- C2: within the global budget, a candidate whose fill throws or
hits the 5-second per-field timeout gets an error entry carrying its
identifier appended, the skipped counter incremented, filled count and
warnings untouched, and the loop continues with the remaining
candidates; once the 30-second budget is exceeded the loop stops
before the candidate, appends exactly one warning, and leaves every
recorded outcome unchanged. -/
theorem fillLoop_failure_isolation (c : RunCand) (rest : List RunCand) (elapsed : Nat)
    (r : FillResults) (hatt : c.field.element.attached = true)
    (herr : c.timesOut = true ∨ ∃ msg, fillSingleField c.field c.value = Except.error msg) :
    (elapsed ≤ 30000 →
      fillLoop (c :: rest) elapsed r = fillLoop rest (elapsed + stepTime c) (processOne c r)
      ∧ (∃ m, (processOne c r).errors = r.errors ++ [(c.field.identifier, m)])
      ∧ (processOne c r).fieldsSkipped = r.fieldsSkipped + 1
      ∧ (processOne c r).fieldsFilled = r.fieldsFilled
      ∧ (processOne c r).warnings = r.warnings)
    ∧ (30000 < elapsed →
      fillLoop (c :: rest) elapsed r =
        { r with warnings := r.warnings ++ [timeoutWarning] }) := by
  constructor
  · intro hle
    have hnot : ¬(30000 < elapsed) := by omega
    have hloop : fillLoop (c :: rest) elapsed r =
        fillLoop rest (elapsed + stepTime c) (processOne c r) := by
      rw [fillLoop, if_neg hnot]
    have hpo : ∃ m, processOne c r = { r with
        errors := r.errors ++ [(c.field.identifier, m)],
        fieldsSkipped := r.fieldsSkipped + 1 } := by
      rcases herr with ht | ⟨msg, hfill⟩
      · exact ⟨"Field fill timeout", processOne_timeout c r hatt ht⟩
      · rcases ht : c.timesOut with _ | _
        · exact ⟨if jsIncludes msg "timeout" then "Field fill timeout" else msg,
            processOne_error c r msg hatt ht hfill⟩
        · exact ⟨"Field fill timeout", processOne_timeout c r hatt ht⟩
    obtain ⟨m, hm⟩ := hpo
    refine ⟨hloop, ⟨m, by rw [hm]⟩, by rw [hm], by rw [hm], by rw [hm]⟩
  · intro hgt
    rw [fillLoop, if_pos hgt]

/-- A per-field-timeout candidate used by the C2 witness. -/
def hangCand : RunCand := { field := emailField, value := "a@b.com", timesOut := true }

/-- Witness for C2: a run with one hanging candidate at clock 0
records the timeout error and skip and recurses on the empty
remainder, while the same candidate reached at clock 30001 only
appends the global-timeout warning. -/
theorem fillLoop_failure_isolation_witness :
    (fillLoop [hangCand] 0 {} = fillLoop [] (0 + stepTime hangCand) (processOne hangCand {})
      ∧ (∃ m, (processOne hangCand ({} : FillResults)).errors =
          [] ++ [(hangCand.field.identifier, m)])
      ∧ (processOne hangCand ({} : FillResults)).fieldsSkipped = 0 + 1)
    ∧ fillLoop [hangCand] 30001 {} = { warnings := [timeoutWarning] } := by
  constructor
  · have h := (fillLoop_failure_isolation hangCand [] 0 {} rfl (Or.inl rfl)).1 (by omega)
    exact ⟨h.1, h.2.1, h.2.2.1⟩
  · exact (fillLoop_failure_isolation hangCand [] 30001 {} rfl (Or.inl rfl)).2 (by omega)

/-! ## C3: maxLength truncation -/

theorem fillTextField_plain (elem : Elem) (v : String) (hf : focusElement elem = true)
    (hml : elem.maxLength ≤ 0) :
    fillTextField elem v = Except.ok ({ elem with value := jsTrim v }, true) := by
  unfold fillTextField
  rw [hf]
  have hc : ¬((decide (0 < elem.maxLength)
      && decide (elem.maxLength < ((jsTrim v).length : Int))) = true) := by
    rw [decide_eq_false (by omega), Bool.false_and]
    exact Bool.false_ne_true
  simp only [Bool.not_true, Bool.false_eq_true, if_false, if_neg hc]
  rfl

theorem fillTextField_truncate (elem : Elem) (v : String) (hf : focusElement elem = true)
    (hml : 0 < elem.maxLength) (hlen : elem.maxLength < ((jsTrim v).length : Int)) :
    fillTextField elem v =
      Except.ok ({ elem with value := jsSubstringTo (jsTrim v) elem.maxLength.toNat }, true) := by
  unfold fillTextField
  rw [hf]
  have hc : (decide (0 < elem.maxLength)
      && decide (elem.maxLength < ((jsTrim v).length : Int))) = true := by
    rw [decide_eq_true hml, decide_eq_true hlen, Bool.and_self]
  simp only [Bool.not_true, Bool.false_eq_true, if_false, if_pos hc]
  rfl

/-- C3 (amended): a text-like control with a positive maxLength
smaller than the trimmed value stores exactly the first maxLength
characters of the trimmed value and the fill returns true, counting as
filled in the run; the truncation warning goes only to the console and
is not recorded in the FillResult warnings list (see the
counterexample). -/
theorem fillTextField_truncation_behavior :
    (∀ (elem : Elem) (v : String), focusElement elem = true → 0 < elem.maxLength →
      elem.maxLength < ((jsTrim v).length : Int) →
      fillTextField elem v =
        Except.ok ({ elem with value := jsSubstringTo (jsTrim v) elem.maxLength.toNat }, true))
    ∧ (∀ (c : RunCand) (r : FillResults) (f2 : Field), c.field.element.attached = true →
      c.timesOut = false → fillSingleField c.field c.value = Except.ok (f2, true) →
      processOne c r = { r with fieldsFilled := r.fieldsFilled + 1 }) :=
  ⟨fillTextField_truncate, processOne_filled⟩

/-- A text control declaring maxLength 5 and its descriptor matching
the zipCode data key, used by C3. -/
def zipElem : Elem := { maxLength := 5 }

/-- The zip field descriptor. -/
def zipField : Field := { name := "zipcode", identifier := "zipcode", element := zipElem }

/-- The zip candidate as run by the loop. -/
def zipCand : RunCand := { field := zipField, value := "123456789012" }

/-- The zip field after its truncating fill. -/
def zipFieldFilled : Field := { zipField with element := { zipElem with value := "12345" } }

/-- Counterexample to C3 as stated: the Scenario B run truncates and
succeeds, but the run's FillResult warnings list stays empty - no
truncation warning is recorded (the source only logs it via
console.warn inside fillTextField). -/
theorem fillTextField_truncation_counterexample :
    performAutoFill [zipField] [("zipCode", "123456789012")] defaultMappings =
      Except.ok { fieldsDetected := 1, fieldsFilled := 1 }
    ∧ fillTextField zipElem "123456789012" =
      Except.ok ({ zipElem with value := "12345" }, true) := by
  exact ⟨rfl, rfl⟩

/-- Witness for C3 at the Scenario B input. -/
theorem fillTextField_truncation_witness :
    fillTextField zipElem "123456789012" =
      Except.ok ({ zipElem with value := jsSubstringTo (jsTrim "123456789012") 5 }, true)
    ∧ processOne zipCand {} = { fieldsFilled := 1 } := by
  constructor
  · exact fillTextField_truncation_behavior.1 zipElem "123456789012" rfl (by decide) (by decide)
  · exact fillTextField_truncation_behavior.2 zipCand {} zipFieldFilled rfl rfl rfl

/-! ## C4: number range rejection -/

/-- C4 (amended): fillNumberField returns false (and the element is
untouched) for every value parsing to NaN and for every parsed value
below the declared min or above the declared max; such a false return
is counted by the loop as a skip with a could-not-fill warning and no
entry in the errors list; an in-range parsed value is assigned as its
stringified number with a true return.  (A non-finite parse such as
Infinity is not rejected when no bound catches it - see the
counterexample, which is why the claim's not-finite wording fails.) -/
theorem fillNumberField_range_behavior :
    (∀ (elem : Elem) (v : String), parseFloat v = none →
      fillNumberField elem v = Except.ok (elem, false))
    ∧ (∀ (elem : Elem) (v : String) (n : JSNum), parseFloat v = some n →
      (belowMinB elem n = true ∨ aboveMaxB elem n = true) →
      fillNumberField elem v = Except.ok (elem, false))
    ∧ (∀ (elem : Elem) (v : String) (n : JSNum), parseFloat v = some n →
      belowMinB elem n = false → aboveMaxB elem n = false → focusElement elem = true →
      elem.maxLength ≤ 0 →
      fillNumberField elem v = Except.ok ({ elem with value := jsTrim (JSNum.render n) }, true))
    ∧ (∀ (c : RunCand) (r : FillResults) (f2 : Field), c.field.element.attached = true →
      c.timesOut = false → fillSingleField c.field c.value = Except.ok (f2, false) →
      processOne c r = { r with
        fieldsSkipped := r.fieldsSkipped + 1,
        warnings := r.warnings ++ ["Could not fill field: " ++ c.field.identifier] }) := by
  have heq : ∀ (elem : Elem) (v : String) (n : JSNum), parseFloat v = some n →
      fillNumberField elem v = wrapErr "Number field fill failed: "
        (if belowMinB elem n = true then Except.ok (elem, false)
          else if aboveMaxB elem n = true then Except.ok (elem, false)
          else fillTextField elem (JSNum.render n)) := by
    intro elem v n hp
    unfold fillNumberField
    rw [hp]
  refine ⟨?_, ?_, ?_, processOne_refused⟩
  · intro elem v hp
    unfold fillNumberField
    rw [hp]
    rfl
  · intro elem v n hp hor
    rw [heq elem v n hp]
    rcases hor with h | h
    · rw [if_pos h]
      rfl
    · by_cases hb : belowMinB elem n = true
      · rw [if_pos hb]
        rfl
      · rw [if_neg hb, if_pos h]
        rfl
  · intro elem v n hp hb ha hf hml
    rw [heq elem v n hp,
      if_neg (by rw [hb]; exact Bool.false_ne_true),
      if_neg (by rw [ha]; exact Bool.false_ne_true),
      fillTextField_plain elem (JSNum.render n) hf hml]
    rfl

/-- A number control declaring min 0 and max 10 (Scenario D). -/
def numElem : Elem := { minAttr := "0", maxAttr := "10" }

/-- The Scenario D number field descriptor. -/
def numField : Field := { type := "number", identifier := "age", element := numElem }

/-- The Scenario D candidate with value 15. -/
def numCand : RunCand := { field := numField, value := "15" }

/-- Counterexample to C4 as stated: the value Infinity does not parse
to a finite number, yet with no declared bounds fillNumberField
assigns the string Infinity and returns true instead of false (the
source checks isNaN, not isFinite). -/
theorem fillNumberField_counterexample :
    parseFloat "Infinity" = some JSNum.posInf
    ∧ fillNumberField {} "Infinity" = Except.ok ({ value := "Infinity" }, true) := by
  exact ⟨rfl, rfl⟩

/-- Witness for C4 at the Scenario D input: 15 is above max 10, the
fill returns false, and the loop counts a skip with no error entry. -/
theorem fillNumberField_range_witness :
    fillNumberField numElem "15" = Except.ok (numElem, false)
    ∧ processOne numCand {} =
      { fieldsSkipped := 1, warnings := ["Could not fill field: age"] } := by
  constructor
  · exact fillNumberField_range_behavior.2.1 numElem "15" (JSNum.finite 15 0) rfl
      (Or.inr rfl)
  · have h := fillNumberField_range_behavior.2.2.2 numCand {} numField rfl rfl rfl
    exact h.trans (by decide)

/-! ## C5: phone character stripping -/

/-- C5 (amended): the phone strategy writes the trimmed value with
every character removed except digits, plus signs (wherever they
occur, not only in leading position), hyphens, parentheses and
whitespace, then applies the text-like fill (which trims again). -/
theorem fillPhoneField_strips (elem : Elem) (v : String)
    (hf : focusElement elem = true) (hml : elem.maxLength ≤ 0) :
    fillPhoneField elem v = Except.ok ({ elem with
      value := jsTrim (String.mk ((jsTrim v).data.filter fun c =>
        c.isDigit || c == '+' || c == '-' || jsWhitespaceB c || c == '(' || c == ')')) },
      true) := by
  unfold fillPhoneField
  rw [fillTextField_plain elem _ hf hml]
  rfl

/-- Counterexample to C5 as stated: a plus sign that is not leading is
kept, not removed (the regex class keeps every plus). -/
theorem fillPhoneField_counterexample :
    fillPhoneField {} "1+2" = Except.ok ({ value := "1+2" }, true) ∧ "1+2" ≠ "12" :=
  ⟨rfl, by decide⟩

/-- Witness for C5: the letter x is stripped while digits, interior
plus, hyphen, parentheses and inner spaces survive, and the result is
re-trimmed. -/
theorem fillPhoneField_strips_witness :
    fillPhoneField {} " (212) 555-0x1+7 " =
      Except.ok ({ value := "(212) 555-01+7" }, true) := by
  have h := fillPhoneField_strips {} " (212) 555-0x1+7 " rfl (by decide)
  exact h.trans rfl

/-! ## C6: https scheme prepending is idempotent -/

theorem trimList_eq_self_of_ends {l : List Char}
    (hh : ∀ a, l.head? = some a → jsWhitespaceB a = false)
    (hl : ∀ a, l.reverse.head? = some a → jsWhitespaceB a = false) :
    trimList l = l := by
  apply trimList_eq_self
  · rcases l with _ | ⟨c, cs⟩
    · rfl
    · exact dropWhile_cons_false cs (hh c rfl)
  · rcases hr : l.reverse with _ | ⟨c, cs⟩
    · rfl
    · exact dropWhile_cons_false cs (hl c (by rw [hr]; rfl))

theorem trimList_idem (l : List Char) : trimList (trimList l) = trimList l :=
  trimList_eq_self_of_ends (fun _ ha => trimList_head_not_ws ha)
    (fun _ ha => trimList_reverse_head_not_ws ha)

theorem listStartsWith_append_self : ∀ x y : List Char, listStartsWith (x ++ y) x = true := by
  intro x
  induction x with
  | nil => intro y; rw [List.nil_append]; cases y <;> rfl
  | cons c cs ih =>
    intro y
    show (c == c && listStartsWith (cs ++ y) cs) = true
    rw [beq_self_eq_true, Bool.true_and]
    exact ih y

/-- Appending a non-empty already-trimmed tail to the https scheme
characters gives a whitespace-free-ended list, fixed by trim. -/
theorem trimList_https {t : List Char} (hne : t ≠ [])
    (hl : ∀ a, t.reverse.head? = some a → jsWhitespaceB a = false) :
    trimList ("https://".data ++ t) = "https://".data ++ t := by
  apply trimList_eq_self_of_ends
  · intro a ha
    have h1 : ("https://".data ++ t).head? = some 'h' := rfl
    rw [h1] at ha
    rw [← Option.some.inj ha]
    rfl
  · intro a ha
    rw [List.reverse_append] at ha
    rcases hr : t.reverse with _ | ⟨c, cs⟩
    · exact absurd (by rw [← List.reverse_reverse t, hr]; rfl) hne
    · rw [hr, List.cons_append, List.head?_cons] at ha
      rw [← Option.some.inj ha]
      exact hl c (by rw [hr]; rfl)

/-- C6: filling a url field with a trimmed non-empty schemeless value
stores the value with https:// prepended exactly once; a value already
carrying an http(s) scheme is stored unchanged; and refilling the
read-back value stores it identically (idempotence - no double
prepend). -/
theorem fillUrlField_scheme_idempotent (elem : Elem) (v : String)
    (hf : focusElement elem = true) (hml : elem.maxLength ≤ 0) :
    (jsTrim v ≠ "" → hasHttpScheme (jsTrim v) = false →
      fillUrlField elem v =
        Except.ok ({ elem with value := jsConcat "https://" (jsTrim v) }, true)
      ∧ fillUrlField { elem with value := jsConcat "https://" (jsTrim v) }
          (jsConcat "https://" (jsTrim v)) =
        Except.ok ({ elem with value := jsConcat "https://" (jsTrim v) }, true))
    ∧ (hasHttpScheme (jsTrim v) = true →
      fillUrlField elem v = Except.ok ({ elem with value := jsTrim v }, true)) := by
  have hidem : jsTrim (jsTrim v) = jsTrim v :=
    congrArg String.mk (trimList_idem v.data)
  constructor
  · intro hne hns
    have hnil : trimList v.data ≠ [] := by
      intro hnil
      exact hne (by unfold jsTrim; rw [hnil])
    have htrimu : jsTrim (jsConcat "https://" (jsTrim v)) = jsConcat "https://" (jsTrim v) :=
      congrArg String.mk
        (trimList_https hnil fun a ha => trimList_reverse_head_not_ws ha)
    have hschemeu : hasHttpScheme (jsConcat "https://" (jsTrim v)) = true := by
      unfold hasHttpScheme jsStartsWith
      rw [show (jsConcat "https://" (jsTrim v)).data
          = "https://".data ++ (jsTrim v).data from rfl]
      rw [listStartsWith_append_self, Bool.or_true]
    have hbne : (jsTrim v != "") = true := bne_iff_ne.mpr hne
    constructor
    · unfold fillUrlField
      rw [if_pos (show ((jsTrim v != "") && !hasHttpScheme (jsTrim v)) = true by
        rw [hns, hbne]; rfl)]
      rw [fillTextField_plain elem _ hf hml, htrimu]
      rfl
    · have hf2 : focusElement { elem with value := jsConcat "https://" (jsTrim v) } = true := hf
      have hml2 : ({ elem with value := jsConcat "https://" (jsTrim v) } : Elem).maxLength ≤ 0 :=
        hml
      unfold fillUrlField
      rw [if_neg (show ¬((jsTrim (jsConcat "https://" (jsTrim v)) != "")
            && !hasHttpScheme (jsTrim (jsConcat "https://" (jsTrim v)))) = true by
        rw [htrimu, hschemeu]; simp)]
      rw [htrimu, fillTextField_plain _ _ hf2 hml2, htrimu]
      rfl
  · intro hsch
    unfold fillUrlField
    rw [if_neg (show ¬((jsTrim v != "") && !hasHttpScheme (jsTrim v)) = true by
      rw [hsch]; simp)]
    rw [fillTextField_plain elem _ hf hml, hidem]
    rfl

/-- Witness for C6 at the value example.com: one prepend on first
fill, and no second prepend when the read-back value is refilled. -/
theorem fillUrlField_scheme_idempotent_witness :
    fillUrlField {} "example.com" = Except.ok ({ value := "https://example.com" }, true)
    ∧ fillUrlField { value := "https://example.com" } "https://example.com" =
      Except.ok ({ value := "https://example.com" }, true) := by
  have h := (fillUrlField_scheme_idempotent {} "example.com" rfl (by decide)).1
    (by decide) (by decide)
  exact ⟨h.1.trans rfl, h.2.trans rfl⟩

/-! ## C7: the zero-fields run -/

/-- C7 (amended): a valid run against a document with zero visible
fillable controls does not crash: handlePerformAutoFill answers a
structured failure response with success false and the
machine-readable category NO_FIELDS.  The failure response carries no
result object and hence no counts (the counterexample shows the
claim's detected:0 / filled:0 part fails). -/
theorem handlePerformAutoFill_no_fields (userData : List (String × String))
    (mappings : List (String × AliasMapping)) (hne : userData ≠ []) :
    handlePerformAutoFill true userData [] mappings =
      { success := false, error := some "No fillable form fields found on this page.",
        errorType := some "NO_FIELDS" } := by
  have h1 : userData.isEmpty = false := by
    cases userData with
    | nil => exact absurd rfl hne
    | cons a t => rfl
  unfold handlePerformAutoFill
  rw [h1]
  rfl

/-- Counterexample to C7 as stated: the zero-fields failure response
carries success false and category NO_FIELDS, but no result object at
all - in particular no detected:0 / filled:0 counts. -/
theorem handlePerformAutoFill_no_fields_counterexample :
    (handlePerformAutoFill true [("email", "a@b.com")] [] defaultMappings).success = false
    ∧ (handlePerformAutoFill true [("email", "a@b.com")] [] defaultMappings).results = none
    ∧ (handlePerformAutoFill true [("email", "a@b.com")] [] defaultMappings).fieldsCount
      = none := by
  exact ⟨rfl, rfl, rfl⟩

/-- Witness for C7 with a concrete non-empty data record. -/
theorem handlePerformAutoFill_no_fields_witness :
    handlePerformAutoFill true [("email", "a@b.com")] [] defaultMappings =
      { success := false, error := some "No fillable form fields found on this page.",
        errorType := some "NO_FIELDS" } :=
  handlePerformAutoFill_no_fields [("email", "a@b.com")] defaultMappings (by decide)

end FormEase
